import Mathlib

/-!
Verification of the sandboxed filesystem accessor (`sap::fs::Filesystem`,
`src/fs.cpp`).

Paths are modelled structurally: an absolute path is a list of segments
(`List String`), so the root `/a/b` is `["a", "b"]`.  Caller-supplied
relative-path strings are parsed by splitting on `'/'`.  The C++ code's
string-level containment check (`fs.cpp` lines 21-25) is embedded on the
character-list form of the paths, matching `std::string::size`/`substr`.

`std::filesystem::weakly_canonical` is modelled lexically (resolve `.` and
`..`; `..` at the root stays at the root), which is its behaviour in the
absence of symlinks; the spec itself treats symlink resolution as an open
gap.  The disk is modelled as a finite collection of regular files (with
byte contents) and directories, and each filesystem primitive used by the
code (`exists`, `ifstream`/`ofstream` open, `create_directories`,
`remove`, `directory_iterator`, `recursive_directory_iterator`,
`fs::relative`) is embedded against that state.
-/

namespace SapFs

/-- Error kinds of the accessor (spec §7): `invalidPath` for empty input,
`pathEscapesRoot` for a failed containment check, `ioError` for any
underlying filesystem failure, `notADirectory` for a listing target that
exists but is not a directory. -/
inductive FsError where
  | invalidPath
  | pathEscapesRoot
  | ioError
  | notADirectory
  deriving DecidableEq, Repr

/-- Split a character list on `'/'` into raw segments (may include empty
segments for leading/trailing/double separators). -/
def splitSlash : List Char → List String
  | [] => [""]
  | c :: cs =>
    let rest := splitSlash cs
    if c = '/' then "" :: rest
    else
      match rest with
      | [] => [String.mk [c]]
      | s :: ss => String.mk (c :: s.data) :: ss

/-- Parse a path string into its non-empty segments, as
`std::filesystem::path` decomposes a generic-format string. -/
def parseSegs (s : String) : List String :=
  (splitSlash s.data).filter (fun seg => seg ≠ "")

/-- Whether the string begins with `'/'`, i.e. denotes an absolute POSIX
path. -/
def startsSlash (s : String) : Bool :=
  match s.data with
  | c :: _ => c = '/'
  | [] => false

/-- `m_Root / relative_path` (`fs.cpp` line 17): `std::filesystem::path`
`operator/` replaces the left operand when the right operand is absolute,
otherwise appends. -/
def joinSegs (root : List String) (rel : String) : List String :=
  if startsSlash rel then parseSegs rel else root ++ parseSegs rel

/-- One step of lexical normalization: `.` is dropped, `..` removes the
last segment kept so far (staying at the filesystem root when there is
none), any other segment is kept. -/
def normAcc (acc : List String) : List String → List String
  | [] => acc
  | s :: rest =>
    if s = "." then normAcc acc rest
    else if s = ".." then normAcc acc.dropLast rest
    else normAcc (acc ++ [s]) rest

/-- `std::filesystem::weakly_canonical` (`fs.cpp` line 19), modelled as
lexical normalization of the absolute path's segments. -/
def normSegs (l : List String) : List String := normAcc [] l

/-- Character form of a segment list joined with `'/'` separators. -/
def segsChars : List String → List Char
  | [] => []
  | [s] => s.data
  | s :: rest => s.data ++ '/' :: segsChars rest

/-- `.string()` form of an absolute path given by its segments:
`pathChars ["a","b"] = "/a/b".data`, `pathChars [] = "/".data`. -/
def pathChars (l : List String) : List Char :=
  '/' :: segsChars l

/-- `Filesystem::validate_path` (`fs.cpp` lines 11-27): reject the empty
string; join root and input; normalize; then the string-level containment
check of lines 21-25: reject when the result is shorter than the root's
string or does not start with the root's string, character for character.
-/
def validate_path (root : List String) (rel : String) :
    Except FsError (List String) :=
  if rel = "" then
    .error .invalidPath
  else
    let abs := normSegs (joinSegs root rel)
    let rootStr := pathChars root
    let absStr := pathChars abs
    if absStr.length < rootStr.length ∨ absStr.take rootStr.length ≠ rootStr then
      .error .pathEscapesRoot
    else
      .ok abs

/-- Disk state: the regular files (absolute segment path, byte content)
and the directories present. A well-formed disk never lists the same path
both as a file and as a directory. -/
structure Disk where
  files : List (List String × List Nat)
  dirs : List (List String)
  deriving DecidableEq, Repr

/-- Whether `p` is present as a regular file. -/
def isFile (d : Disk) (p : List String) : Bool :=
  d.files.any (fun f => f.1 = p)

/-- Whether `p` is present as a directory. -/
def isDir (d : Disk) (p : List String) : Bool :=
  d.dirs.any (fun q => q = p)

/-- `std::filesystem::exists` on the validated absolute path. -/
def diskExists (d : Disk) (p : List String) : Bool :=
  isFile d p || isDir d p

/-- Content of the regular file at `p`, when present. -/
def lookupFile (d : Disk) (p : List String) : Option (List Nat) :=
  (d.files.find? (fun f => f.1 = p)).map Prod.snd

/-- All strict prefixes of `p`: the ancestor directories that
`fs::create_directories(abs_path.parent_path())` walks, from the
filesystem root down to `p`'s parent. -/
def strictPrefixes (p : List String) : List (List String) :=
  (List.range p.length).map (fun n => p.take n)

/-- Whether the directory `p` still contains an entry (file or
directory strictly below it). -/
def hasChild (d : Disk) (p : List String) : Bool :=
  (d.files.map Prod.fst ++ d.dirs).any
    (fun e => p.isPrefixOf e && e ≠ p)

/-- `Filesystem::exists` (`fs.cpp` lines 29-34): a failed validation is
reported as `false`, never as an error; otherwise report presence of the
validated absolute path. -/
def exists_fn (d : Disk) (root : List String) (rel : String) : Bool :=
  match validate_path root rel with
  | .error _ => false
  | .ok p => diskExists d p

/-- `Filesystem::read` (`fs.cpp` lines 36-52): validate (propagating the
error), open for binary reading (fails when the entry is not a readable
regular file), read the whole content. -/
def read_fn (d : Disk) (root : List String) (rel : String) :
    Except FsError (List Nat) :=
  match validate_path root rel with
  | .error e => .error e
  | .ok p =>
    match lookupFile d p with
    | some c => .ok c
    | none => .error .ioError

/-- `Filesystem::write` (`fs.cpp` lines 63-85): validate; create the
missing ancestor directories (`fs::create_directories` fails when an
ancestor exists as a non-directory); open for binary writing with
truncation (fails when the target is an existing directory); store the
content. -/
def write_fn (d : Disk) (root : List String) (rel : String)
    (content : List Nat) : Except FsError Disk :=
  match validate_path root rel with
  | .error e => .error e
  | .ok p =>
    if (strictPrefixes p).any (fun q => isFile d q) then .error .ioError
    else if isDir d p then .error .ioError
    else
      .ok { files := (p, content) :: d.files.filter (fun f => f.1 ≠ p),
            dirs := (strictPrefixes p).filter (fun q => ¬ isDir d q)
                      ++ d.dirs }

/-- `Filesystem::remove` (`fs.cpp` lines 92-105): validate; `fs::remove`
removes a regular file or an empty directory, reports `false` without an
error code when there was nothing to remove (treated as success by the
code), and sets an error code on failure (modelled: removing a non-empty
directory). -/
def remove_fn (d : Disk) (root : List String) (rel : String) :
    Except FsError Disk :=
  match validate_path root rel with
  | .error e => .error e
  | .ok p =>
    if isFile d p then
      .ok { files := d.files.filter (fun f => f.1 ≠ p), dirs := d.dirs }
    else if isDir d p then
      if hasChild d p then .error .ioError
      else .ok { files := d.files, dirs := d.dirs.filter (fun q => q ≠ p) }
    else .ok d

/-- Longest common prefix removal: returns the remainders of the two
segment lists after their shared leading segments. -/
def dropCommon : List String → List String → List String × List String
  | a :: as, b :: bs =>
    if a = b then dropCommon as bs else (a :: as, b :: bs)
  | as, bs => (as, bs)

/-- `fs::relative(entry, m_Root)` (`fs.cpp` lines 174, 209), lexically:
strip the common prefix, then one `..` per remaining base segment
followed by the remaining entry segments; two equal paths yield `"."`. -/
def relChars (base e : List String) : List Char :=
  let r := dropCommon base e
  let segs := r.1.map (fun _ => "..") ++ r.2
  if segs = [] then ['.'] else segsChars segs

/-- The immediate children of directory `p` on disk, as
`fs::directory_iterator` enumerates them. -/
def childEntries (d : Disk) (p : List String) : List (List String) :=
  (d.files.map Prod.fst ++ d.dirs).filter
    (fun e => e.dropLast = p && e ≠ p)

/-- All regular files strictly below `p`, as
`fs::recursive_directory_iterator` filtered by `is_regular_file`
enumerates them (`fs.cpp` lines 204-208). -/
def descFiles (d : Disk) (p : List String) : List (List String) :=
  (d.files.map Prod.fst).filter (fun e => p.isPrefixOf e && e ≠ p)

/-- `Filesystem::list` (`fs.cpp` lines 151-183): an empty argument
targets the root without validation, otherwise validate; a non-existent
target yields an empty listing; an existing non-directory fails with
`NotADirectory`; otherwise report each immediate child relative to the
root. -/
def list_fn (d : Disk) (root : List String) (rel_dir : String) :
    Except FsError (List String) :=
  let dirPathE : Except FsError (List String) :=
    if rel_dir = "" then .ok root else validate_path root rel_dir
  match dirPathE with
  | .error e => .error e
  | .ok p =>
    if diskExists d p = false then .ok []
    else if isDir d p = false then .error .notADirectory
    else .ok ((childEntries d p).map (fun e => String.mk (relChars root e)))

/-- `Filesystem::list_recursive` (`fs.cpp` lines 185-218): same front
matter as `list`, then the regular files of the whole subtree, each
relative to the root. -/
def list_recursive_fn (d : Disk) (root : List String) (rel_dir : String) :
    Except FsError (List String) :=
  let dirPathE : Except FsError (List String) :=
    if rel_dir = "" then .ok root else validate_path root rel_dir
  match dirPathE with
  | .error e => .error e
  | .ok p =>
    if diskExists d p = false then .ok []
    else if isDir d p = false then .error .notADirectory
    else .ok ((descFiles d p).map (fun e => String.mk (relChars root e)))

/-- `std::filesystem::path::operator/` on the string forms: an absolute
right operand replaces the left operand, otherwise the right operand is
appended after a separator (the left operand is assumed not to end in a
separator, as a clean absolute root path). -/
def cppJoin (a b : String) : String :=
  if startsSlash b then b else a ++ "/" ++ b

/-- `Filesystem::absolute` (`fs.cpp` line 233): `m_Root / relative_path`
with no validation or normalization. -/
def absolute_fn (rootStr : String) (rel : String) : String :=
  cppJoin rootStr rel

/-- Well-formedness of the configured root's segments: none is empty,
`"."` or `".."` (the root is a clean absolute directory path). -/
def goodRoot (root : List String) : Prop :=
  ∀ s ∈ root, s ≠ "" ∧ s ≠ "." ∧ s ≠ ".."

instance (root : List String) : Decidable (goodRoot root) := by
  unfold goodRoot
  infer_instance

/-! Helper lemmas about path strings and normalization. -/

theorem segsChars_cons_cons (a b : String) (l : List String) :
    segsChars (a :: b :: l) = a.data ++ '/' :: segsChars (b :: l) := rfl

/-- Appending a further non-empty segment strictly lengthens the string
form of a segment list. -/
theorem segsChars_len_lt (s : String) (hs : s.data ≠ []) :
    ∀ (l rest : List String),
      (segsChars l).length < (segsChars (l ++ s :: rest)).length := by
  intro l
  induction l with
  | nil =>
    intro rest
    cases rest with
    | nil =>
      simpa [segsChars] using List.length_pos.mpr hs
    | cons b bs =>
      show (segsChars []).length < (segsChars (s :: b :: bs)).length
      rw [segsChars_cons_cons]
      simp only [segsChars, List.length_nil, List.length_append,
        List.length_cons]
      omega
  | cons a l ih =>
    intro rest
    cases l with
    | nil =>
      simp [segsChars_cons_cons, segsChars]
    | cons b l' =>
      have h := ih rest
      simp only [List.cons_append, segsChars_cons_cons, List.length_append,
        List.length_cons]
      simp only [List.cons_append] at h
      omega

/-- `normAcc` processes a concatenation left to right. -/
theorem normAcc_append (acc l m : List String) :
    normAcc acc (l ++ m) = normAcc (normAcc acc l) m := by
  induction l generalizing acc with
  | nil => rfl
  | cons s rest ih =>
    simp only [List.cons_append, normAcc]
    split_ifs <;> exact ih _

/-- A segment list free of `.` and `..` is left unchanged by
normalization. -/
theorem normAcc_no_dots (acc l : List String)
    (hl : ∀ s ∈ l, s ≠ "." ∧ s ≠ "..") :
    normAcc acc l = acc ++ l := by
  induction l generalizing acc with
  | nil => simp [normAcc]
  | cons s rest ih =>
    have hs := hl s (by simp)
    have hrest : ∀ x ∈ rest, x ≠ "." ∧ x ≠ ".." :=
      fun x hx => hl x (by simp [hx])
    simp [normAcc, hs.1, hs.2, ih (acc ++ [s]) hrest]

/-! Theorems about the accessor's operations. -/

/-- C1 (evidence): the containment check of `validate_path` is a naive
string-prefix test with no separator-boundary condition, so against root
`/a/b` the input `../bc` — whose normalized candidate `/a/bc` merely
shares the root's string as a prefix — is accepted and the escaping path
`/a/bc` is returned, instead of being rejected with `PathEscapesRoot`. -/
theorem validate_path_accepts_sibling_sharing_prefix :
    validate_path ["a", "b"] "../bc" = .ok ["a", "bc"] := rfl

/-- C2: any input whose normalized candidate resolves strictly above the
root (the candidate's segments, extended by some non-empty remainder, are
the root's segments) is rejected with `PathEscapesRoot`, regardless of
depth: such a candidate's string is strictly shorter than the root's
string, so the length test of `fs.cpp` line 23 fires. -/
theorem validate_path_rejects_above_root (root : List String) (rel : String)
    (hroot : goodRoot root) (hrel : rel ≠ "") (t : List String)
    (ht : t ≠ []) (habove : normSegs (joinSegs root rel) ++ t = root) :
    validate_path root rel = .error .pathEscapesRoot := by
  obtain ⟨s, rest, rfl⟩ : ∃ s rest, t = s :: rest := by
    cases t with
    | nil => exact absurd rfl ht
    | cons s rest => exact ⟨s, rest, rfl⟩
  have hs : s ≠ "" := by
    refine (hroot s ?_).1
    rw [← habove]
    simp
  have hsd : s.data ≠ [] := fun h => hs (String.ext h)
  have key : ∀ l : List String, l ++ s :: rest = root →
      (pathChars l).length < (pathChars root).length := by
    intro l hl
    rw [← hl]
    simpa [pathChars] using segsChars_len_lt s hsd l rest
  have hlt := key (normSegs (joinSegs root rel)) habove
  simp [validate_path, hrel, hlt]

theorem validate_path_rejects_above_root_witness :
    validate_path ["a", "b"] "c/../../.." = .error .pathEscapesRoot :=
  validate_path_rejects_above_root ["a", "b"] "c/../../.."
    (by decide) (by decide) ["a", "b"] (by decide) (by decide)

/-- C3 (evidence): an absolute input unrelated to the root is not always
rejected: `std::filesystem` join replaces the root when the right operand
is absolute, and the naive prefix containment check then accepts
`/a/bc` against root `/a/b` although it lies outside the root. -/
theorem validate_path_accepts_unrelated_absolute :
    validate_path ["a", "b"] "/a/bc" = .ok ["a", "bc"] := rfl

/-- C4: `exists` reports `false` both when validation fails — the error
is swallowed, never surfaced — and when the validated target is absent
from the disk. -/
theorem exists_false_on_invalid_or_absent (d : Disk) (root : List String)
    (rel : String) :
    (∀ e, validate_path root rel = .error e → exists_fn d root rel = false)
    ∧ (∀ p, validate_path root rel = .ok p → diskExists d p = false →
        exists_fn d root rel = false) := by
  constructor
  · intro e he
    simp [exists_fn, he]
  · intro p hp hd
    simp [exists_fn, hp, hd]

theorem exists_false_on_invalid_or_absent_witness :
    exists_fn ⟨[], [["a"]]⟩ ["a"] "../../etc/passwd" = false
    ∧ exists_fn ⟨[], [["a"]]⟩ ["a"] "missing.txt" = false :=
  ⟨(exists_false_on_invalid_or_absent ⟨[], [["a"]]⟩ ["a"] "../../etc/passwd").1
      .pathEscapesRoot rfl,
    (exists_false_on_invalid_or_absent ⟨[], [["a"]]⟩ ["a"] "missing.txt").2
      ["a", "missing.txt"] rfl rfl⟩

/-- C5: on a clean root, `validate_path "."` succeeds and returns the
root itself, while the empty input is rejected with `InvalidPath`. -/
theorem validate_path_dot_and_empty (root : List String)
    (hroot : goodRoot root) :
    validate_path root "." = .ok root
    ∧ validate_path root "" = .error .invalidPath := by
  constructor
  · have hj : joinSegs root "." = root ++ ["."] := by
      have h1 : startsSlash "." = false := rfl
      have h2 : parseSegs "." = ["."] := rfl
      simp [joinSegs, h1, h2]
    have hn : normSegs (joinSegs root ".") = root := by
      rw [hj]
      show normAcc [] (root ++ ["."]) = root
      rw [normAcc_append, normAcc_no_dots [] root
        (fun s hs => ⟨(hroot s hs).2.1, (hroot s hs).2.2⟩)]
      simp [normAcc]
    have hne : ("." : String) ≠ "" := by decide
    simp only [validate_path, hne, if_false, hn]
    rw [if_neg]
    push_neg
    exact ⟨le_refl _, List.take_length _⟩
  · simp [validate_path]

theorem validate_path_dot_and_empty_witness :
    validate_path ["a", "b"] "." = .ok ["a", "b"]
    ∧ validate_path ["a", "b"] "" = .error .invalidPath :=
  validate_path_dot_and_empty ["a", "b"] (by decide)

/-- C6 (counterexample): `"."` passes validation (resolving to the root
itself), but writing there fails — the validated target is an existing
directory, which `std::ofstream` cannot open — so write-then-read does
not succeed, let alone return the written bytes. -/
theorem write_read_fails_on_directory_target :
    validate_path ["a"] "." = .ok ["a"]
    ∧ write_fn ⟨[], [["a"]]⟩ ["a"] "." [0] = .error .ioError
    ∧ read_fn ⟨[], [["a"]]⟩ ["a"] "." = .error .ioError :=
  ⟨rfl, rfl, rfl⟩

/-- C6 (amended): for every path that passes validation, provided the
validated target is not an existing directory and no strict ancestor of
it is an existing regular file, `write` succeeds and a subsequent `read`
returns exactly the written bytes — for every byte sequence, empty and
null-containing ones included. -/
theorem write_then_read_roundtrip (d : Disk) (root : List String)
    (rel : String) (b : List Nat) (p : List String)
    (hv : validate_path root rel = .ok p)
    (hanc : (strictPrefixes p).any (fun q => isFile d q) = false)
    (hdir : isDir d p = false) :
    ∃ d', write_fn d root rel b = .ok d'
      ∧ read_fn d' root rel = .ok b := by
  refine ⟨{ files := (p, b) :: d.files.filter (fun f => f.1 ≠ p),
            dirs := (strictPrefixes p).filter (fun q => ¬ isDir d q)
                      ++ d.dirs }, ?_, ?_⟩
  · simp [write_fn, hv, hanc, hdir]
  · simp only [read_fn, hv, lookupFile]
    rw [List.find?_cons_of_pos _ (by simp)]
    rfl

theorem write_then_read_roundtrip_witness :
    ∃ d', write_fn ⟨[], [["a"]]⟩ ["a"] "sub/f.bin" [0, 255] = .ok d'
      ∧ read_fn d' ["a"] "sub/f.bin" = .ok [0, 255] :=
  write_then_read_roundtrip ⟨[], [["a"]]⟩ ["a"] "sub/f.bin" [0, 255]
    ["a", "sub", "f.bin"] rfl rfl rfl

/-- C7: `remove` on a validated path whose target is absent succeeds and
leaves the disk unchanged (idempotent removal), while a removal the
filesystem refuses (modelled: a non-empty directory) is reported as
`IoError`. -/
theorem remove_absent_is_success (d : Disk) (root : List String)
    (rel : String) (p : List String)
    (hv : validate_path root rel = .ok p) :
    (diskExists d p = false → remove_fn d root rel = .ok d)
    ∧ (isFile d p = false → isDir d p = true → hasChild d p = true →
        remove_fn d root rel = .error .ioError) := by
  constructor
  · intro h
    rw [diskExists, Bool.or_eq_false_iff] at h
    simp [remove_fn, hv, h.1, h.2]
  · intro h1 h2 h3
    simp [remove_fn, hv, h1, h2, h3]

theorem remove_absent_is_success_witness :
    remove_fn ⟨[], [["a"]]⟩ ["a"] "ghost.txt" = .ok ⟨[], [["a"]]⟩ :=
  (remove_absent_is_success ⟨[], [["a"]]⟩ ["a"] "ghost.txt"
    ["a", "ghost.txt"] rfl).1 rfl

/-- C8: for a listing target — the root itself when the argument is
empty, otherwise the validated path — `list` returns an empty listing
when the target does not exist, fails with `NotADirectory` when it
exists but is not a directory, and an empty argument bypasses validation
entirely: validation would reject the empty string, yet `list ""` never
reports `InvalidPath`. -/
theorem list_missing_empty_nondir_error (d : Disk) (root : List String)
    (rel : String) (p : List String)
    (hp : (rel = "" ∧ p = root) ∨ validate_path root rel = .ok p) :
    (diskExists d p = false → list_fn d root rel = .ok [])
    ∧ (diskExists d p = true → isDir d p = false →
        list_fn d root rel = .error .notADirectory)
    ∧ (rel = "" →
        validate_path root rel = .error .invalidPath
        ∧ list_fn d root rel ≠ .error .invalidPath) := by
  rcases hp with ⟨hrel, hpr⟩ | hv
  · subst hrel
    subst hpr
    refine ⟨?_, ?_, ?_⟩
    · intro h
      simp [list_fn, h]
    · intro h1 h2
      simp [list_fn, h1, h2]
    · intro _
      refine ⟨by simp [validate_path], ?_⟩
      by_cases h1 : diskExists d p = false
      · simp [list_fn, h1]
      · by_cases h2 : isDir d p = false
        · simp [list_fn, h1, h2]
        · simp [list_fn, h1, h2]
  · have hne : rel ≠ "" := by
      intro h
      rw [h] at hv
      simp [validate_path] at hv
    refine ⟨?_, ?_, fun h => absurd h hne⟩
    · intro h
      simp [list_fn, hne, hv, h]
    · intro h1 h2
      simp [list_fn, hne, hv, h1, h2]

theorem list_missing_empty_nondir_error_witness :
    list_fn ⟨[(["a", "f"], [1])], [["a"]]⟩ ["a"] "f"
      = .error .notADirectory :=
  (list_missing_empty_nondir_error ⟨[(["a", "f"], [1])], [["a"]]⟩ ["a"] "f"
    ["a", "f"] (Or.inr rfl)).2.1 rfl rfl

/-- C9: for an existing directory target, `list_recursive` succeeds and
its result contains exactly the strings `fs::relative(e, root)` for the
regular files `e` of the full subtree below the target — directories
contribute nothing — so, compared as a set, the result is independent of
enumeration order. -/
theorem list_recursive_exactly_subtree_files (d : Disk)
    (root : List String) (rel : String) (p : List String)
    (hp : (rel = "" ∧ p = root) ∨ validate_path root rel = .ok p)
    (hex : diskExists d p = true) (hdir : isDir d p = true) :
    ∃ l, list_recursive_fn d root rel = .ok l
      ∧ ∀ s, s ∈ l ↔ ∃ e, e ∈ d.files.map Prod.fst
          ∧ (p.isPrefixOf e = true ∧ e ≠ p)
          ∧ s = String.mk (relChars root e) := by
  have hout : list_recursive_fn d root rel
      = .ok ((descFiles d p).map (fun e => String.mk (relChars root e))) := by
    rcases hp with ⟨hrel, hpr⟩ | hv
    · subst hrel
      subst hpr
      simp [list_recursive_fn, hex, hdir]
    · have hne : rel ≠ "" := by
        intro h
        rw [h] at hv
        simp [validate_path] at hv
      simp [list_recursive_fn, hne, hv, hex, hdir]
  refine ⟨_, hout, ?_⟩
  intro s
  simp only [descFiles, List.mem_map, List.mem_filter, Bool.and_eq_true,
    decide_eq_true_eq]
  constructor
  · rintro ⟨e, ⟨he, hpre, hnp⟩, rfl⟩
    exact ⟨e, he, ⟨hpre, hnp⟩, rfl⟩
  · rintro ⟨e, he, ⟨hpre, hnp⟩, rfl⟩
    exact ⟨e, ⟨he, hpre, hnp⟩, rfl⟩

theorem list_recursive_exactly_subtree_files_witness :
    ∃ l, list_recursive_fn
        ⟨[(["r", "a", "b", "c.txt"], []), (["r", "a", "d.txt"], [])],
          [["r"], ["r", "a"], ["r", "a", "b"]]⟩ ["r"] "a" = .ok l
      ∧ ∀ s, s ∈ l ↔ ∃ e,
          e ∈ ([(["r", "a", "b", "c.txt"], ([] : List Nat)),
                (["r", "a", "d.txt"], [])] :
              List (List String × List Nat)).map Prod.fst
          ∧ (["r", "a"].isPrefixOf e = true ∧ e ≠ ["r", "a"])
          ∧ s = String.mk (relChars ["r"] e) :=
  list_recursive_exactly_subtree_files
    ⟨[(["r", "a", "b", "c.txt"], []), (["r", "a", "d.txt"], [])],
      [["r"], ["r", "a"], ["r", "a", "b"]]⟩ ["r"] "a" ["r", "a"]
    (Or.inr rfl) rfl rfl

/-- C10: `absolute` is the bare platform join of the root and the input:
an absolute input replaces the root entirely and is returned unchanged,
and any other input is appended to the root after a separator. -/
theorem absolute_is_platform_join (rootStr rel : String) :
    (startsSlash rel = true → absolute_fn rootStr rel = rel)
    ∧ (startsSlash rel = false →
        absolute_fn rootStr rel = rootStr ++ "/" ++ rel) := by
  constructor <;> intro h <;> simp [absolute_fn, cppJoin, h]

theorem absolute_is_platform_join_witness :
    absolute_fn "/a/b" "/etc/passwd" = "/etc/passwd" :=
  (absolute_is_platform_join "/a/b" "/etc/passwd").1 rfl

end SapFs
